import Mathlib

/-!
Shallow embedding of `dm_collector_c.cpp` (module `dm_collector_c`): the
outbound log-config command generation (`sort_type_ids`,
`generate_log_config_msgs`, `dm_collector_c_disable_logs`,
`dm_collector_c_enable_logs`, `dm_collector_c_generate_diag_cfg`) and the
inbound frame dispatch (`dm_collector_c_receive_log_packet`).

Helpers declared in headers that are not part of this repository snapshot
(`consts.h`, `hdlc.h`, `log_config.h`, `log_packet.h`) are either modelled
from the specification (marked in their doc comments) or taken as
parameters of the functions that call them.
-/

namespace DmCollector

/-- The log-config operation selectors passed to `encode_log_config`:
`DISABLE`, `SET_MASK` and the two debug subsystem tags `DEBUG_LTE_ML1`,
`DEBUG_WCDMA_L1` (used at lines 147, 201, 209, 224 of dm_collector_c.cpp). -/
inductive LogConfigOp where
  | DISABLE
  | SET_MASK
  | DEBUG_LTE_ML1
  | DEBUG_WCDMA_L1
  deriving DecidableEq

/-- Modelled from the spec: the reserved debug-message type id
(`Modem_debug_message`, declared in consts.h which is not in src/).  Its
value 0x1FEB is the one carried little-endian at offset 4 of the synthetic
debug header template in `dm_collector_c_receive_log_packet`. -/
def Modem_debug_message : Nat := 0x1FEB

/-- Modelled from the spec: `get_equip_id` (consts.h, not in src/) — the
equipment id is a pure structural projection of a type id (its high
nibble). -/
def get_equip_id (i : Nat) : Nat := (i / 4096) % 16

/-- `std::unique` applied by `sort_type_ids` (dm_collector_c.cpp lines
81-82): drop adjacent duplicate elements. -/
def uniqueAdj : List Nat → List Nat
  | [] => []
  | [a] => [a]
  | a :: b :: rest =>
    if a = b then uniqueAdj (b :: rest) else a :: uniqueAdj (b :: rest)

/-- The bucketing loop of `sort_type_ids` (lines 84-98): walk the sorted,
deduplicated ids, extending the current run while `f` (the equipment id)
matches the previous element's, and closing the run exactly when it
changes.  `prev` is the previous element; `cur` is the current run,
accumulated in reverse. -/
def bucketAux (f : Nat → Nat) (prev : Nat) (cur : List Nat) :
    List Nat → List (List Nat)
  | [] => [cur.reverse]
  | x :: xs =>
    if f x = f prev then bucketAux f x (x :: cur) xs
    else cur.reverse :: bucketAux f x [x] xs

/-- Partition a list into maximal contiguous runs on which `f` is
constant (the grouping performed by `sort_type_ids`). -/
def bucketBy (f : Nat → Nat) : List Nat → List (List Nat)
  | [] => []
  | x :: xs => bucketAux f x [x] xs

/-- `sort_type_ids` (lines 78-100): sort ascending, remove duplicates,
then bucket into maximal runs sharing one equipment id. -/
def sort_type_ids (type_ids : List Nat) : List (List Nat) :=
  bucketBy get_equip_id (uniqueAdj (type_ids.insertionSort (fun a b => a ≤ b)))

/-- One row of the id-to-name table (`ValueName` entries of
`LogPacketTypeID_To_Name`).  Modelled from the spec: consts.h is not in
src/; the table maps each numeric type id to its human-readable name. -/
structure ValueName where
  id : Nat
  name : String
  deriving DecidableEq

/-- `find_ids`: collect, in table order, the ids of every catalog row
whose name matches; the count returned by the C function is the length of
this list.  Modelled from the spec: one name may resolve to several
ids. -/
def find_ids (catalog : List ValueName) (s : String) : List Nat :=
  (catalog.filter (fun v => v.name = s)).map (fun v => v.id)

/-- An element of the Python `type_names` sequence: either a string or
any non-string object (which the resolution loop silently ignores,
lines 184-186). -/
inductive PyItem where
  | str (s : String)
  | nonstr
  deriving DecidableEq

/-- Whether a sequence element is a string (`PyString_Check`). -/
def isStr : PyItem → Bool
  | .str _ => true
  | .nonstr => false

/-- The string elements of a sequence, in order. -/
def strMems (items : List PyItem) : List String :=
  items.filterMap (fun i => match i with | .str s => some s | .nonstr => none)

/-- The name-resolution loop of `generate_log_config_msgs` (lines
172-189): each string is resolved through `find_ids`, appending its ids to
the accumulator; a string resolving to zero ids aborts with ValueError
(modelled as `none`); non-strings are skipped. -/
def resolve_loop (catalog : List ValueName) :
    List PyItem → List Nat → Option (List Nat)
  | [], acc => some acc
  | .str s :: rest, acc =>
    if (find_ids catalog s).length = 0 then none
    else resolve_loop catalog rest (acc ++ find_ids catalog s)
  | .nonstr :: rest, acc => resolve_loop catalog rest acc

/-- The ids contributed by the string elements of a sequence, in order. -/
def resolvedIds (catalog : List ValueName) (items : List PyItem) : List Nat :=
  (strMems items).flatMap (find_ids catalog)

/-- A log-config command as handed to `encode_log_config` and written to
the sink by `send_msg`: the operation selector with its id vector. -/
abbrev Cmd := LogConfigOp × List Nat

/-- The two Python exceptions `generate_log_config_msgs` can set:
ValueError ("Wrong type name.") and RuntimeError ("Log config msg failed
to encode."). -/
inductive GenErr where
  | valueError
  | runtimeError
  deriving DecidableEq

/-- Modelled from the spec: `encode_log_config` (log_config.h, not in
src/) serializes a command's opcode, equipment id and id bitmask into a
binary buffer.  The callers only test the buffer for NULL / zero length,
so a failed encode is modelled as the empty list. -/
abbrev Encoder := LogConfigOp → List Nat → List Nat

/-- The SET_MASK loop of `generate_log_config_msgs` (lines 221-232): one
command per bucket, in order, aborting with RuntimeError at the first
empty encode (commands already sent stay sent). -/
def sendSetMasks (enc : Encoder) : List (List Nat) → List Cmd × Option GenErr
  | [] => ([], none)
  | v :: vs =>
    if enc .SET_MASK v = [] then ([], some .runtimeError)
    else
      let r := sendSetMasks enc vs
      ((LogConfigOp.SET_MASK, v) :: r.1, r.2)

/-- Lines 191-234 of `generate_log_config_msgs`, after name resolution:
if the resolved ids contain `Modem_debug_message`, its first occurrence is
erased and two debug-subsystem commands carrying the remaining ids are
sent first (LTE_ML1 then WCDMA_L1, each aborting on an empty encode);
then one SET_MASK command is sent per `sort_type_ids` bucket. -/
def gen_from_ids (enc : Encoder) (type_ids : List Nat) :
    List Cmd × Option GenErr :=
  if Modem_debug_message ∈ type_ids then
    let rest := type_ids.erase Modem_debug_message
    if enc .DEBUG_LTE_ML1 rest = [] then ([], some .runtimeError)
    else if enc .DEBUG_WCDMA_L1 rest = [] then
      ([(LogConfigOp.DEBUG_LTE_ML1, rest)], some .runtimeError)
    else
      let r := sendSetMasks enc (sort_type_ids rest)
      ((LogConfigOp.DEBUG_LTE_ML1, rest) :: (LogConfigOp.DEBUG_WCDMA_L1, rest) :: r.1,
        r.2)
  else
    sendSetMasks enc (sort_type_ids type_ids)

/-- `generate_log_config_msgs` (lines 165-235): resolve the requested
names, then generate and send the command sequence.  The first component
is the list of commands actually written to the sink, the second the
Python exception set (if any). -/
def generate_log_config_msgs (catalog : List ValueName) (enc : Encoder)
    (type_names : List PyItem) : List Cmd × Option GenErr :=
  match resolve_loop catalog type_names [] with
  | none => ([], some .valueError)
  | some ids => gen_from_ids enc ids

/-- A duck-typed Python transport or file object, reduced to the two
attribute probes the module performs (`PyObject_HasAttrString` for "read"
and "write"). -/
structure PyObj where
  hasRead : Bool
  hasWrite : Bool
  deriving DecidableEq

/-- `check_file` (lines 102-105): probes only for a "write" attribute. -/
def check_file (o : PyObj) : Bool := o.hasWrite

/-- `check_serial_port` (lines 108-111): probes only for a "read"
attribute; the source carries a FIXME that this should be stricter. -/
def check_serial_port (o : PyObj) : Bool := o.hasRead

/-- Outcome of `dm_collector_c_enable_logs` and
`dm_collector_c_generate_diag_cfg`: an exception (TypeError, ValueError
or RuntimeError) or Py_True. -/
inductive CallRes where
  | typeError
  | valueError
  | runtimeError
  | ok
  deriving DecidableEq

/-- Map a `generate_log_config_msgs` error to the call outcome. -/
def errRes : GenErr → CallRes
  | .valueError => .valueError
  | .runtimeError => .runtimeError

/-- `dm_collector_c_enable_logs` (lines 238-272): check the port (for a
"read" attribute), then generate and send the enable commands. -/
def enable_logs (catalog : List ValueName) (enc : Encoder) (port : PyObj)
    (type_names : List PyItem) : List Cmd × CallRes :=
  if check_serial_port port = false then ([], .typeError)
  else
    match generate_log_config_msgs catalog enc type_names with
    | (ms, none) => (ms, .ok)
    | (ms, some e) => (ms, errRes e)

/-- `dm_collector_c_generate_diag_cfg` (lines 275-320): check the file
(for a "write" attribute), write a forced DISABLE command with an empty
id vector, then generate and write the enable commands. -/
def generate_diag_cfg (catalog : List ValueName) (enc : Encoder)
    (file : PyObj) (type_names : List PyItem) : List Cmd × CallRes :=
  if check_file file = false then ([], .typeError)
  else if enc .DISABLE [] = [] then ([], .runtimeError)
  else
    match generate_log_config_msgs catalog enc type_names with
    | (ms, none) => ((LogConfigOp.DISABLE, []) :: ms, .ok)
    | (ms, some e) => ((LogConfigOp.DISABLE, []) :: ms, errRes e)

/-- Whether a command is a SET_MASK command. -/
def isSetMask : Cmd → Bool
  | (LogConfigOp.SET_MASK, _) => true
  | _ => false

/-- Whether a command is one of the two debug-subsystem commands. -/
def isDebugSub : Cmd → Bool
  | (LogConfigOp.DEBUG_LTE_ML1, _) => true
  | (LogConfigOp.DEBUG_WCDMA_L1, _) => true
  | _ => false

/-- The id vectors of the SET_MASK commands of a command list, in
order. -/
def setMaskVecs (cmds : List Cmd) : List (List Nat) :=
  (cmds.filter isSetMask).map (fun c => c.2)

/-- The 14-byte synthetic debug header of
`dm_collector_c_receive_log_packet` (lines 380-386): a constant template
whose byte at offset 2 is patched to the frame length plus 14, truncated
to one byte by the `char` cast; bytes 4-5 carry 0x1FEB little-endian. -/
def debug_header (L : Nat) : List Nat :=
  [0x00, 0x00, (L + 14) % 256, 0x00, 0xeb, 0x1f,
   0x00, 0x00, 0x00, 0x00, 0x00, 0x00, 0x00, 0x00]

/-- The buffer handed to `decode_log_packet` on the debug path (lines
387-391): the synthetic header prepended to the original frame bytes. -/
def synth_debug_packet (frame : List Nat) : List Nat :=
  debug_header frame.length ++ frame

/-- The little-endian 16-bit length sub-field at offset 2 of a buffer in
the layout `decode_log_packet` receives. -/
def hdr_len_field (b : List Nat) : Nat := b.getD 2 0 + 256 * b.getD 3 0

/-- The little-endian 16-bit type-id sub-field at offset 4 of the same
layout. -/
def hdr_type_field (b : List Nat) : Nat := b.getD 4 0 + 256 * b.getD 5 0

/-- State of the inbound side.  Modelled from the spec: `get_next_frame`
(hdlc.h, not in src/) pops the earliest complete frame of the session
buffer together with its checksum verdict.  `clock` is a logical clock
ordering the observable steps of a call (each primitive consumes one
tick), used to state when the wall-clock timestamp is sampled. -/
structure RecvState where
  frames : List (List Nat × Bool)
  clock : Nat
  deriving DecidableEq

/-- `get_posix_timestamp` (lines 123-128): read the wall clock, modelled
as the current logical clock value. -/
def get_posix_timestamp (s : RecvState) : Nat × RecvState :=
  (s.clock, { s with clock := s.clock + 1 })

/-- Modelled from the spec: `get_next_frame(frame, crc_correct)` pops the
earliest complete frame in arrival order, returning success, the frame
bytes and the checksum verdict; with no complete frame it returns
failure and leaves the buffer unchanged. -/
def get_next_frame (s : RecvState) : (Bool × List Nat × Bool) × RecvState :=
  match s.frames with
  | [] => ((false, [], false), { s with clock := s.clock + 1 })
  | (f, crc) :: rest => ((true, f, crc), { frames := rest, clock := s.clock + 1 })

/-- Observable events of one `receive_log_packet` call, in order: the
wall-clock sample and the drain attempt. -/
inductive RecvEvent where
  | sampleTime (t : Nat)
  | drain (ok : Bool) (f : List Nat) (crc : Bool)
  deriving DecidableEq

/-- The Python value returned by `dm_collector_c_receive_log_packet`:
None, a bare decoded object, or a `(decoded, timestamp)` pair. -/
inductive RecvRet (α : Type) where
  | none
  | only (d : α)
  | pair (d : α) (ts : Nat)
  deriving DecidableEq

/-- `dm_collector_c_receive_log_packet` (lines 336-409), parameterized
by the classifiers `is_log_packet` / `is_debug_packet` and the decoder
`decode_log_packet` (log_packet.h, not in src/).  The timestamp is
sampled first (only when requested), then one frame is drained; a frame
with a bad checksum, or classified as neither log nor debug packet,
yields None.  A log packet is decoded from its third byte on; a debug
packet is decoded after prepending the synthetic header.  Returns the
value, the new state, and the event trace. -/
def receive_log_packet {α : Type} (islog isdb : List Nat → Bool)
    (decode : List Nat → Bool → α) (skip_decoding include_timestamp : Bool)
    (s0 : RecvState) : RecvRet α × RecvState × List RecvEvent :=
  let step1 : Option Nat × RecvState × List RecvEvent :=
    if include_timestamp then
      let p := get_posix_timestamp s0
      (some p.1, p.2, [RecvEvent.sampleTime p.1])
    else (none, s0, [])
  let ts := step1.1
  let s1 := step1.2.1
  let q := get_next_frame s1
  let ok := q.1.1
  let f := q.1.2.1
  let crc := q.1.2.2
  let s2 := q.2
  let ev := step1.2.2 ++ [RecvEvent.drain ok f crc]
  if ok && crc then
    if islog f then
      let d := decode (f.drop 2) skip_decoding
      match ts with
      | some t => (RecvRet.pair d t, s2, ev)
      | none => (RecvRet.only d, s2, ev)
    else if isdb f then
      let d := decode (synth_debug_packet f) skip_decoding
      match ts with
      | some t => (RecvRet.pair d t, s2, ev)
      | none => (RecvRet.only d, s2, ev)
    else (RecvRet.none, s2, ev)
  else (RecvRet.none, s2, ev)

/-- The SetMask union as claim C1 words it: the input sequence
deduplicated (in sorted order) with the debug id removed. -/
def specSetMaskUnion (ids : List Nat) : List Nat :=
  (uniqueAdj (ids.insertionSort (fun a b => a ≤ b))).filter
    (fun x => x != Modem_debug_message)

/-- Equipment-grouping property of the enable path's SetMask commands:
every command's id vector is nonempty and shares one equipment id; the
concatenation of all of them is sorted, duplicate-free, and contains
exactly the input ids after erasing the first occurrence of the debug id;
and the equipment id changes between adjacent commands, so the runs are
maximal. -/
def EquipGroupingProp (enc : Encoder) (ids : List Nat) : Prop :=
  (∀ v ∈ setMaskVecs (gen_from_ids enc ids).1,
      v ≠ [] ∧ ∀ a ∈ v, ∀ b ∈ v, get_equip_id a = get_equip_id b) ∧
  (setMaskVecs (gen_from_ids enc ids).1).flatten.Sorted (fun a b => a ≤ b) ∧
  (setMaskVecs (gen_from_ids enc ids).1).flatten.Nodup ∧
  (∀ x, x ∈ (setMaskVecs (gen_from_ids enc ids).1).flatten ↔
      x ∈ ids.erase Modem_debug_message) ∧
  List.Chain' (fun u v => get_equip_id u.headI ≠ get_equip_id v.headI)
    (setMaskVecs (gen_from_ids enc ids).1)

/-- Debug-special-case property of the enable path: the call succeeds, the
debug id is gone from the adjusted id set, the first two commands are the
two debug-subsystem commands (LTE_ML1 then WCDMA_L1) carrying the
remaining ids, every further command is a SET_MASK free of the debug id,
and exactly two debug-subsystem commands appear. -/
def DebugSpecialProp (catalog : List ValueName) (enc : Encoder)
    (items : List PyItem) (tids : List Nat) : Prop :=
  (generate_log_config_msgs catalog enc items).2 = none ∧
  Modem_debug_message ∉ tids.erase Modem_debug_message ∧
  (∃ sms, (generate_log_config_msgs catalog enc items).1
      = (LogConfigOp.DEBUG_LTE_ML1, tids.erase Modem_debug_message)
        :: (LogConfigOp.DEBUG_WCDMA_L1, tids.erase Modem_debug_message) :: sms ∧
    (∀ c ∈ sms, c.1 = LogConfigOp.SET_MASK) ∧
    (∀ c ∈ sms, Modem_debug_message ∉ c.2)) ∧
  ((generate_log_config_msgs catalog enc items).1.filter isDebugSub).length = 2

/-- Debug-packet synthesis property: the synthesized header's length
sub-field holds (L + 14) mod 256 (only the low byte is patched), its
type-id sub-field holds the debug-type constant, the synthesized buffer
is 14 bytes longer than the payload and ends with the original payload,
and a drained debug-classified frame is decoded through the log-packet
path on exactly that buffer. -/
def DebugSynthProp {α : Type} (islog isdb : List Nat → Bool)
    (decode : List Nat → Bool → α) (skip : Bool) (s : RecvState)
    (frame : List Nat) : Prop :=
  hdr_len_field (synth_debug_packet frame) = (frame.length + 14) % 256 ∧
  hdr_type_field (synth_debug_packet frame) = Modem_debug_message ∧
  (synth_debug_packet frame).length = frame.length + 14 ∧
  (synth_debug_packet frame).drop 14 = frame ∧
  (receive_log_packet islog isdb decode skip false s).1
    = RecvRet.only (decode (synth_debug_packet frame) skip)

theorem headI_mem {l : List Nat} (h : l ≠ []) : l.headI ∈ l := by
  cases l with
  | nil => exact absurd rfl h
  | cons a t => simp

theorem sendSetMasks_ok (enc : Encoder) (vs : List (List Nat))
    (h : ∀ v ∈ vs, enc .SET_MASK v ≠ []) :
    sendSetMasks enc vs = (vs.map (fun v => (LogConfigOp.SET_MASK, v)), none) := by
  induction vs with
  | nil => rfl
  | cons v vs ih =>
    simp only [sendSetMasks]
    rw [if_neg (h v (List.mem_cons_self v vs))]
    rw [ih (fun u hu => h u (List.mem_cons_of_mem v hu))]
    simp

theorem uniqueAdj_sublist : ∀ l : List Nat, (uniqueAdj l).Sublist l
  | [] => by simp [uniqueAdj]
  | [a] => by simp [uniqueAdj]
  | a :: b :: rest => by
    simp only [uniqueAdj]
    by_cases h : a = b
    · rw [if_pos h]
      exact (uniqueAdj_sublist (b :: rest)).cons a
    · rw [if_neg h]
      exact (uniqueAdj_sublist (b :: rest)).cons₂ a

theorem uniqueAdj_mem : ∀ (l : List Nat) (x : Nat), x ∈ uniqueAdj l ↔ x ∈ l
  | [], _ => by simp [uniqueAdj]
  | [_], _ => by simp [uniqueAdj]
  | a :: b :: rest, x => by
    simp only [uniqueAdj]
    by_cases h : a = b
    · rw [if_pos h, uniqueAdj_mem (b :: rest) x]
      subst h
      simp only [List.mem_cons]
      tauto
    · rw [if_neg h]
      simp only [List.mem_cons, uniqueAdj_mem (b :: rest) x]

theorem uniqueAdj_nodup :
    ∀ l : List Nat, l.Sorted (fun a b => a ≤ b) → (uniqueAdj l).Nodup
  | [], _ => by simp [uniqueAdj]
  | [a], _ => by simp [uniqueAdj]
  | a :: b :: rest, hs => by
    obtain ⟨h1, h2⟩ := List.sorted_cons.mp hs
    simp only [uniqueAdj]
    by_cases h : a = b
    · rw [if_pos h]
      exact uniqueAdj_nodup (b :: rest) h2
    · rw [if_neg h]
      refine List.nodup_cons.mpr ⟨?_, uniqueAdj_nodup (b :: rest) h2⟩
      intro hmem
      have ha : a ∈ b :: rest := (uniqueAdj_mem (b :: rest) a).mp hmem
      obtain ⟨h3, _⟩ := List.sorted_cons.mp h2
      rcases List.mem_cons.mp ha with h4 | h4
      · exact h h4
      · exact h (Nat.le_antisymm (h1 b (List.mem_cons_self b rest)) (h3 a h4))

theorem bucketAux_flatten (f : Nat → Nat) :
    ∀ (rest : List Nat) (prev : Nat) (cur : List Nat),
      (bucketAux f prev cur rest).flatten = cur.reverse ++ rest
  | [], _, cur => by simp [bucketAux]
  | x :: xs, prev, cur => by
    simp only [bucketAux]
    by_cases h : f x = f prev
    · rw [if_pos h, bucketAux_flatten f xs x (x :: cur)]
      simp
    · rw [if_neg h]
      simp [bucketAux_flatten f xs x [x]]

theorem bucketAux_ne_nil (f : Nat → Nat) :
    ∀ (rest : List Nat) (prev : Nat) (cur : List Nat), cur ≠ [] →
      ∀ c ∈ bucketAux f prev cur rest, c ≠ []
  | [], _, cur, hc => by
    intro c hm
    simp only [bucketAux, List.mem_singleton] at hm
    subst hm
    intro h2
    exact hc (List.reverse_eq_nil_iff.mp h2)
  | x :: xs, prev, cur, hc => by
    intro c hm
    simp only [bucketAux] at hm
    by_cases h : f x = f prev
    · rw [if_pos h] at hm
      exact bucketAux_ne_nil f xs x (x :: cur) (List.cons_ne_nil x cur) c hm
    · rw [if_neg h] at hm
      rcases List.mem_cons.mp hm with h1 | h1
      · subst h1
        intro h2
        exact hc (List.reverse_eq_nil_iff.mp h2)
      · exact bucketAux_ne_nil f xs x [x] (List.cons_ne_nil x []) c h1

theorem bucketAux_const (f : Nat → Nat) :
    ∀ (rest : List Nat) (prev : Nat) (cur : List Nat),
      (∀ y ∈ cur, f y = f prev) →
      ∀ c ∈ bucketAux f prev cur rest, ∀ a ∈ c, ∀ b ∈ c, f a = f b
  | [], prev, cur, hinv => by
    intro c hm a ha b hb
    simp only [bucketAux, List.mem_singleton] at hm
    subst hm
    rw [List.mem_reverse] at ha hb
    rw [hinv a ha, hinv b hb]
  | x :: xs, prev, cur, hinv => by
    intro c hm a ha b hb
    simp only [bucketAux] at hm
    by_cases h : f x = f prev
    · rw [if_pos h] at hm
      have hinv2 : ∀ y ∈ x :: cur, f y = f x := by
        intro y hy
        rcases List.mem_cons.mp hy with h1 | h1
        · rw [h1]
        · rw [hinv y h1, h]
      exact bucketAux_const f xs x (x :: cur) hinv2 c hm a ha b hb
    · rw [if_neg h] at hm
      rcases List.mem_cons.mp hm with h1 | h1
      · subst h1
        rw [List.mem_reverse] at ha hb
        rw [hinv a ha, hinv b hb]
      · have hinv2 : ∀ y ∈ [x], f y = f x := by
          intro y hy
          rw [List.mem_singleton.mp hy]
        exact bucketAux_const f xs x [x] hinv2 c h1 a ha b hb

theorem bucketAux_head (f : Nat → Nat) :
    ∀ (rest : List Nat) (prev : Nat) (cur : List Nat),
      ∃ t u, bucketAux f prev cur rest = (cur.reverse ++ t) :: u
  | [], _, cur => ⟨[], [], by simp [bucketAux]⟩
  | x :: xs, prev, cur => by
    simp only [bucketAux]
    by_cases h : f x = f prev
    · rw [if_pos h]
      obtain ⟨t, u, ht⟩ := bucketAux_head f xs x (x :: cur)
      exact ⟨x :: t, u, by rw [ht]; simp⟩
    · rw [if_neg h]
      exact ⟨[], bucketAux f x [x] xs, by simp⟩

theorem bucketAux_chain (f : Nat → Nat) :
    ∀ (rest : List Nat) (prev : Nat) (cur : List Nat), cur ≠ [] →
      (∀ y ∈ cur, f y = f prev) →
      List.Chain' (fun u v => f u.headI ≠ f v.headI) (bucketAux f prev cur rest)
  | [], _, cur, _, _ => by simp [bucketAux]
  | x :: xs, prev, cur, hc, hinv => by
    simp only [bucketAux]
    by_cases h : f x = f prev
    · rw [if_pos h]
      refine bucketAux_chain f xs x (x :: cur) (List.cons_ne_nil x cur) ?_
      intro y hy
      rcases List.mem_cons.mp hy with h1 | h1
      · rw [h1]
      · rw [hinv y h1, h]
    · rw [if_neg h]
      obtain ⟨t, u, ht⟩ := bucketAux_head f xs x [x]
      rw [ht, List.chain'_cons]
      constructor
      · have h1 : (cur.reverse).headI ∈ cur := by
          rw [← List.mem_reverse]
          exact headI_mem (by simpa using hc)
        rw [hinv _ h1]
        simp only [List.reverse_cons, List.reverse_nil, List.nil_append,
          List.singleton_append, List.headI_cons]
        exact fun hh => h hh.symm
      · rw [← ht]
        refine bucketAux_chain f xs x [x] (List.cons_ne_nil x []) ?_
        intro y hy
        rw [List.mem_singleton.mp hy]

theorem bucketBy_flatten (f : Nat → Nat) (l : List Nat) :
    (bucketBy f l).flatten = l := by
  cases l with
  | nil => rfl
  | cons x xs => simpa using bucketAux_flatten f xs x [x]

theorem bucketBy_ne_nil (f : Nat → Nat) (l : List Nat) :
    ∀ c ∈ bucketBy f l, c ≠ [] := by
  cases l with
  | nil => intro c hm; simp [bucketBy] at hm
  | cons x xs => exact bucketAux_ne_nil f xs x [x] (List.cons_ne_nil x [])

theorem bucketBy_const (f : Nat → Nat) (l : List Nat) :
    ∀ c ∈ bucketBy f l, ∀ a ∈ c, ∀ b ∈ c, f a = f b := by
  cases l with
  | nil => intro c hm; simp [bucketBy] at hm
  | cons x xs =>
    refine bucketAux_const f xs x [x] ?_
    intro y hy
    rw [List.mem_singleton.mp hy]

theorem bucketBy_chain (f : Nat → Nat) (l : List Nat) :
    List.Chain' (fun u v => f u.headI ≠ f v.headI) (bucketBy f l) := by
  cases l with
  | nil => simp [bucketBy]
  | cons x xs =>
    refine bucketAux_chain f xs x [x] (List.cons_ne_nil x []) ?_
    intro y hy
    rw [List.mem_singleton.mp hy]

theorem sort_type_ids_flatten (l : List Nat) :
    (sort_type_ids l).flatten
      = uniqueAdj (l.insertionSort (fun a b => a ≤ b)) :=
  bucketBy_flatten _ _

theorem sort_type_ids_mem (l : List Nat) (x : Nat) :
    x ∈ (sort_type_ids l).flatten ↔ x ∈ l := by
  rw [sort_type_ids_flatten, uniqueAdj_mem]
  exact (List.perm_insertionSort _ l).mem_iff

theorem sort_type_ids_sorted (l : List Nat) :
    (sort_type_ids l).flatten.Sorted (fun a b => a ≤ b) := by
  rw [sort_type_ids_flatten]
  exact List.Pairwise.sublist (uniqueAdj_sublist _)
    (List.sorted_insertionSort _ l)

theorem sort_type_ids_nodup (l : List Nat) :
    (sort_type_ids l).flatten.Nodup := by
  rw [sort_type_ids_flatten]
  exact uniqueAdj_nodup _ (List.sorted_insertionSort _ l)

theorem mem_of_mem_sort_type_ids {l v : List Nat} {x : Nat}
    (hv : v ∈ sort_type_ids l) (hx : x ∈ v) : x ∈ l :=
  (sort_type_ids_mem l x).mp (List.mem_flatten.mpr ⟨v, hv, hx⟩)

theorem setMaskVecs_map (vs : List (List Nat)) :
    setMaskVecs (vs.map (fun v => (LogConfigOp.SET_MASK, v))) = vs := by
  induction vs with
  | nil => rfl
  | cons v vs ih =>
    simp only [List.map_cons, setMaskVecs, List.filter_cons] at ih ⊢
    simpa [isSetMask] using ih

theorem filter_isDebugSub_map (vs : List (List Nat)) :
    (vs.map (fun v => (LogConfigOp.SET_MASK, v))).filter isDebugSub = [] := by
  induction vs with
  | nil => rfl
  | cons v vs ih =>
    simp only [List.map_cons, List.filter_cons] at ih ⊢
    simp [isDebugSub, ih]

theorem gen_from_ids_ok (enc : Encoder) (ids : List Nat)
    (henc : ∀ o v, enc o v ≠ []) :
    setMaskVecs (gen_from_ids enc ids).1
        = sort_type_ids (ids.erase Modem_debug_message) ∧
      (gen_from_ids enc ids).2 = none := by
  unfold gen_from_ids
  by_cases h : Modem_debug_message ∈ ids
  · rw [if_pos h, if_neg (henc _ _), if_neg (henc _ _)]
    rw [sendSetMasks_ok enc _ (fun v _ => henc _ _)]
    constructor
    · simp only [setMaskVecs, List.filter_cons, isSetMask]
      exact setMaskVecs_map _
    · rfl
  · rw [if_neg h]
    rw [sendSetMasks_ok enc _ (fun v _ => henc _ _)]
    rw [List.erase_of_not_mem h]
    exact ⟨setMaskVecs_map _, rfl⟩

theorem resolve_loop_some (catalog : List ValueName) :
    ∀ (items : List PyItem) (acc tids : List Nat),
      resolve_loop catalog items acc = some tids →
      tids = acc ++ resolvedIds catalog items
  | [], acc, tids => by
    intro h
    simp only [resolve_loop, Option.some.injEq] at h
    simp [resolvedIds, strMems, ← h]
  | .str s :: rest, acc, tids => by
    intro h
    simp only [resolve_loop] at h
    by_cases hf : (find_ids catalog s).length = 0
    · rw [if_pos hf] at h
      exact absurd h (by simp)
    · rw [if_neg hf] at h
      rw [resolve_loop_some catalog rest (acc ++ find_ids catalog s) tids h]
      simp [resolvedIds, strMems, List.filterMap_cons, List.flatMap_cons,
        List.append_assoc]
  | .nonstr :: rest, acc, tids => by
    intro h
    simp only [resolve_loop] at h
    rw [resolve_loop_some catalog rest acc tids h]
    simp [resolvedIds, strMems, List.filterMap_cons]

theorem resolve_loop_none (catalog : List ValueName) :
    ∀ (items : List PyItem) (acc : List Nat),
      (∃ s, PyItem.str s ∈ items ∧ find_ids catalog s = []) →
      resolve_loop catalog items acc = none
  | [], _, h => by
    obtain ⟨s, hs, _⟩ := h
    exact absurd hs (by simp)
  | .str t :: rest, acc, h => by
    obtain ⟨s, hs, hf⟩ := h
    simp only [resolve_loop]
    by_cases hft : (find_ids catalog t).length = 0
    · rw [if_pos hft]
    · rw [if_neg hft]
      refine resolve_loop_none catalog rest _ ⟨s, ?_, hf⟩
      rcases List.mem_cons.mp hs with h1 | h1
      · exfalso
        injection h1 with h2
        subst h2
        rw [hf] at hft
        simp at hft
      · exact h1
  | .nonstr :: rest, acc, h => by
    obtain ⟨s, hs, hf⟩ := h
    simp only [resolve_loop]
    refine resolve_loop_none catalog rest acc ⟨s, ?_, hf⟩
    rcases List.mem_cons.mp hs with h1 | h1
    · exact absurd h1 (by simp)
    · exact h1

theorem generate_msgs_unknown (catalog : List ValueName) (enc : Encoder)
    (items : List PyItem)
    (h : ∃ s, PyItem.str s ∈ items ∧ find_ids catalog s = []) :
    generate_log_config_msgs catalog enc items = ([], some GenErr.valueError) := by
  unfold generate_log_config_msgs
  rw [resolve_loop_none catalog items [] h]

theorem resolvedIds_nodup (catalog : List ValueName) (items : List PyItem)
    (hcat : (catalog.map (fun v => v.id)).Nodup)
    (hnames : (strMems items).Nodup) :
    (resolvedIds catalog items).Nodup := by
  rw [resolvedIds, List.nodup_flatMap]
  constructor
  · intro s _
    have hsub : (find_ids catalog s).Sublist (catalog.map (fun v => v.id)) := by
      rw [find_ids]
      exact List.Sublist.map _ (List.filter_sublist catalog)
    exact hsub.nodup hcat
  · refine List.Pairwise.imp ?_ hnames
    intro s t hst x hxs hxt
    rw [find_ids, List.mem_map] at hxs hxt
    obtain ⟨v, hv, hvx⟩ := hxs
    obtain ⟨w, hw, hwx⟩ := hxt
    rw [List.mem_filter] at hv hw
    have hvw : v = w :=
      List.inj_on_of_nodup_map hcat hv.1 hw.1 (by rw [hvx, hwx])
    apply hst
    have h1 : v.name = s := by simpa using hv.2
    have h2 : w.name = t := by simpa using hw.2
    rw [← h1, hvw, h2]

theorem not_mem_erase_self_of_nodup {l : List Nat} {a : Nat} (h : l.Nodup) :
    a ∉ l.erase a := by
  intro hmem
  have h1 : (l.erase a).count a = l.count a - 1 := List.count_erase_self a l
  have h2 : l.count a ≤ 1 := List.nodup_iff_count_le_one.mp h a
  have h3 : 1 ≤ (l.erase a).count a := List.one_le_count_iff.mpr hmem
  omega

theorem resolve_filter (catalog : List ValueName) :
    ∀ (items : List PyItem) (acc : List Nat),
      resolve_loop catalog items acc
        = resolve_loop catalog (items.filter isStr) acc
  | [], _ => rfl
  | .str s :: rest, acc => by
    rw [List.filter_cons_of_pos (by rfl)]
    simp only [resolve_loop]
    by_cases h : (find_ids catalog s).length = 0
    · rw [if_pos h, if_pos h]
    · rw [if_neg h, if_neg h]
      exact resolve_filter catalog rest _
  | .nonstr :: rest, acc => by
    rw [List.filter_cons_of_neg (by decide)]
    simp only [resolve_loop]
    exact resolve_filter catalog rest acc

/-! ### Claim theorems -/

/-- C1 (amended): for every input sequence of type ids, with all command
encodes succeeding, the SetMask commands emitted by the enable path each
carry a nonempty id vector sharing one equipment id; the concatenation of
their id vectors is sorted, duplicate-free, and contains exactly the
input ids after erasing the first occurrence of the debug id; and
adjacent commands differ in equipment id, so the runs are maximal and
break exactly where the equipment id changes. -/
theorem c1_equipment_grouping (enc : Encoder) (ids : List Nat)
    (henc : ∀ o v, enc o v ≠ []) : EquipGroupingProp enc ids := by
  unfold EquipGroupingProp
  rw [(gen_from_ids_ok enc ids henc).1]
  refine ⟨?_, sort_type_ids_sorted _, sort_type_ids_nodup _,
    fun x => sort_type_ids_mem _ x, bucketBy_chain _ _⟩
  intro v hv
  exact ⟨bucketBy_ne_nil _ _ v hv, bucketBy_const _ _ v hv⟩

/-- C1 counterexample: on the input [0x1FEB, 0x1FEB] the code erases only
the first occurrence of the debug id, so one SetMask command still
carries 0x1FEB, while the union the claim describes — the deduplicated
input with the debug id removed — is empty. -/
theorem c1_counterexample :
    (setMaskVecs (gen_from_ids (fun _ _ => [1])
          [Modem_debug_message, Modem_debug_message]).1).flatten
      ≠ specSetMaskUnion [Modem_debug_message, Modem_debug_message] := by
  decide

/-- C1 witness: the grouping theorem applied to a concrete encoder and a
concrete id sequence spanning two equipment ids, a duplicate and the
debug id. -/
theorem c1_equipment_grouping_witness :
    (∀ (o : LogConfigOp) (v : List Nat),
        ((fun _ _ => [1]) : Encoder) o v ≠ []) ∧
    EquipGroupingProp (fun _ _ => [1]) [4097, 1, 8171, 4097, 2] :=
  ⟨fun _ _ => List.cons_ne_nil 1 [],
    c1_equipment_grouping _ _ (fun _ _ => List.cons_ne_nil 1 [])⟩

/-- C2: for every catalog that is an id-to-name mapping (no duplicate
ids) and every name set (no duplicate string entries) whose resolved ids
include the debug-message id, with all encodes succeeding, the enable
path emits exactly the two debug-subsystem commands first — each carrying
the remaining ids with the debug id removed — followed only by SetMask
commands in which the debug id never appears. -/
theorem c2_debug_special (catalog : List ValueName) (enc : Encoder)
    (items : List PyItem) (tids : List Nat)
    (hcat : (catalog.map (fun v => v.id)).Nodup)
    (hnames : (strMems items).Nodup)
    (hres : resolve_loop catalog items [] = some tids)
    (hdbg : Modem_debug_message ∈ tids)
    (henc : ∀ o v, enc o v ≠ []) :
    DebugSpecialProp catalog enc items tids := by
  have htids : tids = resolvedIds catalog items := by
    simpa using resolve_loop_some catalog items [] tids hres
  have hnd : tids.Nodup := htids ▸ resolvedIds_nodup catalog items hcat hnames
  have hne : Modem_debug_message ∉ tids.erase Modem_debug_message :=
    not_mem_erase_self_of_nodup hnd
  have hgen : generate_log_config_msgs catalog enc items = gen_from_ids enc tids := by
    unfold generate_log_config_msgs
    rw [hres]
  unfold DebugSpecialProp
  rw [hgen]
  unfold gen_from_ids
  rw [if_pos hdbg, if_neg (henc _ _), if_neg (henc _ _),
    sendSetMasks_ok enc _ (fun v _ => henc _ _)]
  refine ⟨rfl, hne, ⟨_, rfl, ?_, ?_⟩, ?_⟩
  · intro c hc
    rw [List.mem_map] at hc
    obtain ⟨v, _, hv⟩ := hc
    rw [← hv]
  · intro c hc
    rw [List.mem_map] at hc
    obtain ⟨v, hvmem, hv⟩ := hc
    rw [← hv]
    intro hmm
    exact hne (mem_of_mem_sort_type_ids hvmem hmm)
  · simp only [List.filter_cons, isDebugSub]
    rw [filter_isDebugSub_map]
    rfl

/-- C2 witness: the debug-special theorem applied to a concrete two-entry
catalog and the name set resolving to the debug id plus one ordinary
id. -/
theorem c2_debug_special_witness :
    (([⟨8171, "Debug"⟩, ⟨4097, "A"⟩] : List ValueName).map
        (fun v => v.id)).Nodup ∧
    (strMems [PyItem.str "Debug", PyItem.str "A"]).Nodup ∧
    resolve_loop [⟨8171, "Debug"⟩, ⟨4097, "A"⟩]
        [PyItem.str "Debug", PyItem.str "A"] [] = some [8171, 4097] ∧
    Modem_debug_message ∈ [8171, 4097] ∧
    (∀ (o : LogConfigOp) (v : List Nat),
        ((fun _ _ => [1]) : Encoder) o v ≠ []) ∧
    DebugSpecialProp [⟨8171, "Debug"⟩, ⟨4097, "A"⟩] (fun _ _ => [1])
      [PyItem.str "Debug", PyItem.str "A"] [8171, 4097] :=
  ⟨by decide, by decide, by decide, by decide,
    fun _ _ => List.cons_ne_nil 1 [],
    c2_debug_special _ _ _ _ (by decide) (by decide) (by decide) (by decide)
      (fun _ _ => List.cons_ne_nil 1 [])⟩

/-- C3 (amended): a request containing a name that resolves to no id
aborts with ValueError; `enable_logs` writes zero commands, while
`generate_diag_cfg` has by then already written the forced Disable
command and writes nothing else. -/
theorem c3_batch_abort (catalog : List ValueName) (enc : Encoder)
    (port file : PyObj) (items : List PyItem)
    (h : ∃ s, PyItem.str s ∈ items ∧ find_ids catalog s = []) :
    (check_serial_port port = true →
      enable_logs catalog enc port items = ([], CallRes.valueError)) ∧
    (check_file file = true → enc .DISABLE [] ≠ [] →
      generate_diag_cfg catalog enc file items
        = ([(LogConfigOp.DISABLE, [])], CallRes.valueError)) := by
  constructor
  · intro hp
    unfold enable_logs
    rw [if_neg (by simp [hp]), generate_msgs_unknown catalog enc items h]
    rfl
  · intro hf hd
    unfold generate_diag_cfg
    rw [if_neg (by simp [hf]), if_neg hd,
      generate_msgs_unknown catalog enc items h]
    rfl

/-- C3 counterexample: with a one-entry catalog and the request
["A", "B"], `generate_diag_cfg` fails with ValueError but has already
written one command (the forced Disable) to the sink, so "zero commands
sent" does not hold on the config-export path. -/
theorem c3_counterexample :
    (generate_diag_cfg [⟨4097, "A"⟩] (fun _ _ => [1]) ⟨false, true⟩
        [PyItem.str "A", PyItem.str "B"]).2 = CallRes.valueError ∧
    (generate_diag_cfg [⟨4097, "A"⟩] (fun _ _ => [1]) ⟨false, true⟩
        [PyItem.str "A", PyItem.str "B"]).1 ≠ [] := by
  decide

/-- C3 witness: the batch-abort theorem applied to a concrete catalog,
request, port and file. -/
theorem c3_batch_abort_witness :
    (∃ s, PyItem.str s ∈ [PyItem.str "A", PyItem.str "B"] ∧
        find_ids [⟨4097, "A"⟩] s = []) ∧
    ((check_serial_port ⟨true, false⟩ = true →
      enable_logs [⟨4097, "A"⟩] (fun _ _ => [1]) ⟨true, false⟩
          [PyItem.str "A", PyItem.str "B"] = ([], CallRes.valueError)) ∧
     (check_file ⟨false, true⟩ = true →
      ((fun _ _ => [1]) : Encoder) .DISABLE [] ≠ [] →
      generate_diag_cfg [⟨4097, "A"⟩] (fun _ _ => [1]) ⟨false, true⟩
          [PyItem.str "A", PyItem.str "B"]
        = ([(LogConfigOp.DISABLE, [])], CallRes.valueError))) :=
  ⟨⟨"B", by decide, by decide⟩,
    c3_batch_abort _ _ _ _ _ ⟨"B", by decide, by decide⟩⟩

/-- C7: every successful `generate_diag_cfg` call writes the forced
Disable command, built with the empty id set, as the first command of the
output sequence, before any command derived from the requested names. -/
theorem c7_disable_first (catalog : List ValueName) (enc : Encoder)
    (file : PyObj) (items : List PyItem)
    (h : (generate_diag_cfg catalog enc file items).2 = CallRes.ok) :
    ∃ rest, (generate_diag_cfg catalog enc file items).1
      = (LogConfigOp.DISABLE, []) :: rest := by
  unfold generate_diag_cfg at h ⊢
  by_cases h1 : check_file file = false
  · rw [if_pos h1] at h
    simp at h
  · rw [if_neg h1] at h ⊢
    by_cases h2 : enc .DISABLE [] = []
    · rw [if_pos h2] at h
      simp at h
    · rw [if_neg h2] at h ⊢
      rcases hm : generate_log_config_msgs catalog enc items with ⟨ms, e⟩
      cases e with
      | none => exact ⟨ms, rfl⟩
      | some e => exact ⟨ms, rfl⟩

/-- C7 witness: the disable-first theorem applied to a concrete
successful config-export call. -/
theorem c7_disable_first_witness :
    (generate_diag_cfg [⟨4097, "A"⟩] (fun _ _ => [1]) ⟨false, true⟩
        [PyItem.str "A"]).2 = CallRes.ok ∧
    ∃ rest, (generate_diag_cfg [⟨4097, "A"⟩] (fun _ _ => [1]) ⟨false, true⟩
        [PyItem.str "A"]).1 = (LogConfigOp.DISABLE, []) :: rest :=
  ⟨by decide, c7_disable_first _ _ _ _ (by decide)⟩

/-- C8: the code contradicts the claim's capability requirement — an
object carrying only a "read" attribute is accepted as the sink of
`enable_logs` (whose `check_serial_port` probes "read", despite the
port being written to and the source's own FIXME), so the call proceeds
to send commands instead of failing immediately with a TypeError; the
same object would be rejected by the "write" probe `check_file`. -/
theorem c8_port_check_gap :
    check_file ⟨true, false⟩ = false ∧
    (enable_logs [⟨4097, "A"⟩] (fun _ _ => [1]) ⟨true, false⟩
        [PyItem.str "A"]).2 = CallRes.ok ∧
    (enable_logs [⟨4097, "A"⟩] (fun _ _ => [1]) ⟨true, false⟩
        [PyItem.str "A"]).1 = [(LogConfigOp.SET_MASK, [4097])] := by
  decide

/-- C10: non-string elements of the `type_names` sequence are silently
skipped — the enable path produces exactly the commands and outcome it
would produce for the string elements alone. -/
theorem c10_nonstrings_ignored (catalog : List ValueName) (enc : Encoder)
    (items : List PyItem) :
    generate_log_config_msgs catalog enc items
      = generate_log_config_msgs catalog enc (items.filter isStr) := by
  unfold generate_log_config_msgs
  rw [resolve_filter]

/-- C4 (amended): for every raw debug payload of length L, the dispatcher
prepends the 14-byte constant header whose length sub-field equals
(L + 14) mod 256 — only the low byte of the field is patched, so the
claimed value L + 14 holds exactly when L + 14 < 256 — with the fixed
debug-type constant 0x1FEB in its type-id sub-field, and decodes the
result via the log-packet path. -/
theorem c4_debug_synthesis {α : Type} (islog isdb : List Nat → Bool)
    (decode : List Nat → Bool → α) (skip : Bool) (s : RecvState)
    (frame : List Nat) (rest : List (List Nat × Bool))
    (h1 : s.frames = (frame, true) :: rest)
    (h2 : islog frame = false) (h3 : isdb frame = true) :
    DebugSynthProp islog isdb decode skip s frame := by
  refine ⟨rfl, rfl, ?_, rfl, ?_⟩
  · simp only [synth_debug_packet, debug_header, List.length_append,
      List.length_cons, List.length_nil]
    omega
  obtain ⟨fr, ck⟩ := s
  simp only at h1
  subst h1
  simp [receive_log_packet, get_next_frame, h2, h3]

set_option maxRecDepth 8000 in
/-- C4 counterexample: for a debug payload of length 242 the synthesized
length sub-field is (242 + 14) mod 256 = 0, not the 256 the claim
demands. -/
theorem c4_counterexample :
    hdr_len_field (synth_debug_packet (List.replicate 242 0))
      ≠ (List.replicate 242 0).length + 14 := by
  decide

/-- C4 witness: the synthesis theorem applied to a concrete two-byte
debug frame at the head of the deframer queue. -/
theorem c4_debug_synthesis_witness :
    (RecvState.mk [([7, 7], true)] 0).frames = ([7, 7], true) :: [] ∧
    (fun (_ : List Nat) => false) [7, 7] = false ∧
    (fun (_ : List Nat) => true) [7, 7] = true ∧
    DebugSynthProp (fun _ => false) (fun _ => true)
      (fun b (_ : Bool) => b.length) false (RecvState.mk [([7, 7], true)] 0)
      [7, 7] :=
  ⟨rfl, rfl, rfl,
    c4_debug_synthesis _ _ _ _ _ _ _ rfl rfl rfl⟩

/-- C5: a drained frame whose checksum is invalid, or which is classified
as neither a log packet nor a debug packet, makes receive_log_packet
return None — no decoded packet and no error — and leaves exactly the
remaining frames queued, so subsequent draining continues unaffected. -/
theorem c5_bad_frame {α : Type} (islog isdb : List Nat → Bool)
    (decode : List Nat → Bool → α) (skip inc : Bool) (s : RecvState)
    (frame : List Nat) (crc : Bool) (rest : List (List Nat × Bool))
    (h1 : s.frames = (frame, crc) :: rest)
    (h2 : crc = false ∨ (islog frame = false ∧ isdb frame = false)) :
    (receive_log_packet islog isdb decode skip inc s).1 = RecvRet.none ∧
    (receive_log_packet islog isdb decode skip inc s).2.1.frames = rest := by
  obtain ⟨fr, ck⟩ := s
  simp only at h1
  subst h1
  rcases h2 with h2 | ⟨h2a, h2b⟩
  · subst h2
    cases inc <;>
      simp [receive_log_packet, get_next_frame, get_posix_timestamp]
  · cases inc <;> cases crc <;>
      simp [receive_log_packet, get_next_frame, get_posix_timestamp, h2a, h2b]

/-- C5 witness: the bad-frame theorem applied to a concrete queue whose
head frame has an invalid checksum. -/
theorem c5_bad_frame_witness :
    (RecvState.mk [([9], false)] 3).frames = ([9], false) :: [] ∧
    (false = false ∨
      ((fun (_ : List Nat) => true) [9] = false ∧
       (fun (_ : List Nat) => true) [9] = false)) ∧
    ((receive_log_packet (fun _ => true) (fun _ => true)
        (fun b (_ : Bool) => b.length) true true
        (RecvState.mk [([9], false)] 3)).1 = RecvRet.none ∧
     (receive_log_packet (fun _ => true) (fun _ => true)
        (fun b (_ : Bool) => b.length) true true
        (RecvState.mk [([9], false)] 3)).2.1.frames = []) :=
  ⟨rfl, Or.inl rfl,
    c5_bad_frame _ _ _ _ _ _ _ _ _ rfl (Or.inl rfl)⟩

/-- C9: with include_timestamp set, receive_log_packet returns a
(decoded, timestamp) pair exactly when a complete frame with a valid
checksum classified as a log or debug packet is drained; in every other
case it returns bare None with no timestamp attached; and the timestamp
of a returned pair is the clock value sampled once at the start of the
call, before the frame is drained (the event trace records the sample
first, then the drain). -/
theorem c9_timestamp_pairing {α : Type} (islog isdb : List Nat → Bool)
    (decode : List Nat → Bool → α) (skip : Bool) (s : RecvState) :
    (match s.frames with
     | [] =>
       (receive_log_packet islog isdb decode skip true s).1 = RecvRet.none ∧
       (receive_log_packet islog isdb decode skip true s).2.2
         = [RecvEvent.sampleTime s.clock, RecvEvent.drain false [] false]
     | (f, crc) :: _ =>
       (if crc && (islog f || isdb f) then
          (receive_log_packet islog isdb decode skip true s).1
            = RecvRet.pair
                (if islog f then decode (f.drop 2) skip
                 else decode (synth_debug_packet f) skip) s.clock
        else
          (receive_log_packet islog isdb decode skip true s).1
            = RecvRet.none) ∧
       (receive_log_packet islog isdb decode skip true s).2.2
         = [RecvEvent.sampleTime s.clock, RecvEvent.drain true f crc]) := by
  obtain ⟨fr, ck⟩ := s
  cases fr with
  | nil => simp [receive_log_packet, get_next_frame, get_posix_timestamp]
  | cons p rest =>
    obtain ⟨f, crc⟩ := p
    cases crc <;> cases hl : islog f <;> cases hd : isdb f <;>
      simp [receive_log_packet, get_next_frame, get_posix_timestamp, hl, hd]

end DmCollector
